import Mathlib

/-!
A Lean model of the JK-BMS client core (better-bms-app): the declarative
protocol description, command construction with zero padding and an 8-bit
additive checksum, notification frame assembly with checksum verification,
the table-driven response decoder, the command transmitter, and the device
session disconnect path.  Byte buffers (`Uint8Array`) are modelled as
`List Nat` whose entries are the byte values; fallible TypeScript code
(`throw`) is modelled with `Except`.
-/

/-! ## JavaScript values

Decoded items are JavaScript values: numbers, strings, booleans,
`Uint8Array`s, and arrays (produced by the repeated-key accumulator).
JS numbers are modelled as rationals; IEEE-754 rounding is not modelled
(no claim depends on float arithmetic), and `Float32`/`Float64` reads
are modelled by their raw bit patterns below. -/

inductive JSValue where
  | num (x : Rat)
  | str (s : String)
  | bool (b : Bool)
  | bytes (b : List Nat)
  | arr (l : List JSValue)

/-! ## Protocol model (interfaces/protocol resolved form)

These mirror the fully resolved `ProtocolSpecification` the device holds
after `unpackProtocol`: item offsets are materialized and defaults filled
(`DeepRequired`).  Field names follow the source, including its spellings
`endiannes` and `multiplayer`. -/

inductive NumberType where
  | int8 | uint8 | int16 | uint16 | int32 | uint32 | float32 | float64
deriving DecidableEq

inductive Endianness where
  | littleEndian | bigEndian
deriving DecidableEq

inductive TextEncoding where
  | hex | utf8 | ascii
deriving DecidableEq

/-- One resolved item descriptor.  The variant payloads carry what the
source keeps in the item object: `getterFunction` for `raw`,
`textEncoding` for `text`, and `numberType`/`endiannes`/`options`
(`multiplayer`, `precision`) for `numeric`. -/
inductive ItemType where
  | raw (getterFunction : Option (List Nat → Nat → Nat → List Nat → JSValue))
  | text (textEncoding : TextEncoding)
  | numeric (numberType : NumberType) (endiannes : Option Endianness)
      (multiplayer : Option Rat) (precision : Option Nat)
  | boolean

structure ItemDescription where
  key : String
  offset : Nat
  byteLength : Nat
  type : ItemType

structure ResponseDefinition where
  name : String
  dataType : String
  signature : List Nat
  length : Nat
  items : List ItemDescription

structure CommandDefinition where
  name : String
  code : List Nat
  timeout : Nat
  wait : Nat

structure ProtocolSpecification where
  name : String
  segmentHeader : List Nat
  commandHeader : List Nat
  commandLength : Nat
  inactivityTimeout : Nat
  connectPreviousTimeout : Nat
  commands : List CommandDefinition
  responses : List ResponseDefinition

/-- Modelled from the spec: `getResponseBySignature` is produced by
`utils/unpackProtocol`, which is not under src/.  Spec §4.1: "The latter
matches on the first signature byte and returns the unique Response
Definition or null." -/
def getResponseBySignature (protocol : ProtocolSpecification)
    (signature : List Nat) : Option ResponseDefinition :=
  protocol.responses.find? (fun r => r.signature.get? 0 == signature.get? 0)

/-- Modelled from the spec: `getCommandByName` is produced by
`utils/unpackProtocol`, which is not under src/.  Spec §4.1: lookup of a
Command Definition by its name. -/
def getCommandByName (protocol : ProtocolSpecification)
    (commandName : String) : Option CommandDefinition :=
  protocol.commands.find? (fun c => c.name == commandName)

/-! ## Binary helpers and checksum (JKBMS.calculateChecksum) -/

/-- `JKBMS.calculateChecksum`: `byteArray.reduce((acc, byte) => acc += byte, 0)`
then `sum & 0xff`.  On the non-negative byte values the mask is `% 256`. -/
def calculateChecksum (byteArray : List Nat) : Nat :=
  (byteArray.foldl (fun acc byte => acc + byte) 0) % 256

/-! ## Command construction (JKBMS.constructCommandPayload) -/

inductive CommandError where
  | noCharacteristic
  | unknownCommand (name : String)
  | overflow (name : String) (byteLength limit : Nat)
deriving DecidableEq

/-- `commandBuffer[commandBuffer.length - 1] = checksum`; writing at index
`-1` of an empty `Uint8Array` is a no-op. -/
def setLastByte (l : List Nat) (v : Nat) : List Nat :=
  if l.isEmpty then l else l.dropLast ++ [v]

/-- `JKBMS.constructCommandPayload`: build
`[...commandHeader, ...command.code, ...payload]`, reject overflow when
`commandLength` is truthy, then concatenate the zero `template` of length
`commandLength`, `slice(0, commandLength)`, and overwrite the final byte
with the additive checksum of the preceding bytes. -/
def constructCommandPayload (protocol : ProtocolSpecification)
    (command : CommandDefinition) (payload : List Nat) :
    Except CommandError (List Nat) :=
  let template := List.replicate protocol.commandLength 0
  let tempBuffer := protocol.commandHeader ++ command.code ++ payload
  if protocol.commandLength ≠ 0 ∧ tempBuffer.length > protocol.commandLength then
    .error (.overflow command.name tempBuffer.length protocol.commandLength)
  else
    let commandBuffer := (tempBuffer ++ template).take protocol.commandLength
    let checksum := calculateChecksum commandBuffer.dropLast
    .ok (setLastByte commandBuffer checksum)

/-! ## Response decoding (ResponseDecoder.decode) -/

inductive DecodeError where
  | unknownSignature (signature : List Nat)
  | itemError (key : String) (offset : Nat)
deriving DecidableEq

def hexDigit (n : Nat) : Char :=
  if n < 10 then Char.ofNat (48 + n) else Char.ofNat (55 + n)

def byteToHex (b : Nat) : String :=
  String.mk [hexDigit (b / 16 % 16), hexDigit (b % 16)]

/-- Modelled from the spec: `bufferToHexString` (utils/binary) is not under
src/.  Spec §3: "For hex, value is the space-separated uppercase hex
string." -/
def bufferToHexString (buffer : List Nat) : String :=
  String.intercalate " " (buffer.map byteToHex)

/-- Modelled from the spec: the platform `TextDecoder('utf-8')` followed by
`.replaceAll('\u0000', '')` (spec §3: "the bytes are decoded as UTF-8 and
all NUL code points are stripped").  Modelled byte-per-code-point, which is
exact for ASCII payloads. -/
def utf8DecodeStripNul (buffer : List Nat) : String :=
  String.mk ((buffer.filter (fun b => b ≠ 0)).map Char.ofNat)

/-- `responseBuffer.slice(offset, offset + byteLength)`: clamps to the
buffer bounds. -/
def sliceOf (buffer : List Nat) (offset byteLength : Nat) : List Nat :=
  (buffer.drop offset).take byteLength

def byteWidth : NumberType → Nat
  | .int8 | .uint8 => 1
  | .int16 | .uint16 => 2
  | .int32 | .uint32 | .float32 => 4
  | .float64 => 8

/-- Little-endian byte list to natural number. -/
def bytesToNatLE (bs : List Nat) : Nat :=
  bs.foldr (fun b acc => b + 256 * acc) 0

/-- Two's complement interpretation of a `w`-byte unsigned value. -/
def toSigned (w : Nat) (n : Nat) : Int :=
  if n < 2 ^ (8 * w - 1) then (n : Int) else (n : Int) - 2 ^ (8 * w)

/-- The `DataView` getter `view[`get${numberType}`](0, isLittleEndian)`
applied to the item slice: it reads the first `byteWidth` bytes of the
slice.  `Float32`/`Float64` reads are modelled by their raw bit pattern
(no claim depends on IEEE-754 semantics). -/
def readNumeric (numberType : NumberType) (isLittleEndian : Bool)
    (slice : List Nat) : Int :=
  let bs := slice.take (byteWidth numberType)
  let n := if isLittleEndian then bytesToNatLE bs else bytesToNatLE bs.reverse
  match numberType with
  | .uint8 | .uint16 | .uint32 => (n : Int)
  | .int8 => toSigned 1 n
  | .int16 => toSigned 2 n
  | .int32 => toSigned 4 n
  | .float32 | .float64 => (n : Int)

/-- `Number(processedValue.toFixed(p))`: decimal rounding to `p` fractional
digits, modelled as exact rational rounding (the f64 detour of `toFixed` is
not modelled; no claim depends on it). -/
def roundToDigits (v : Rat) (p : Nat) : Rat :=
  (round (v * 10 ^ p) : Rat) / 10 ^ p

/-- `options.multiplayer` is applied first, then `options.precision`. -/
def applyOptions (multiplayer : Option Rat) (precision : Option Nat)
    (decodedValue : Rat) : Rat :=
  let processedValue :=
    match multiplayer with
    | some m => decodedValue * m
    | none => decodedValue
  match precision with
  | some p => roundToDigits processedValue p
  | none => processedValue

/-- The value of one item, per the `switch (dataItem.type)` in
`ResponseDecoder.decode`.  The only failing case is a numeric read whose
slice holds fewer bytes than the `DataView` getter needs (a `RangeError`
in the source, rethrown by the surrounding `catch` which logs the current
item's key and offset). -/
def itemValue (responseBuffer : List Nat) (dataItem : ItemDescription) :
    Except DecodeError JSValue :=
  let buffer := sliceOf responseBuffer dataItem.offset dataItem.byteLength
  match dataItem.type with
  | .raw getterFunction =>
    match getterFunction with
    | some g => .ok (g buffer dataItem.byteLength dataItem.offset responseBuffer)
    | none => .ok (.bytes buffer)
  | .text textEncoding =>
    match textEncoding with
    | .hex => .ok (.str (bufferToHexString buffer))
    | .utf8 | .ascii => .ok (.str (utf8DecodeStripNul buffer))
  | .numeric numberType endiannes multiplayer precision =>
    let isLittleEndian :=
      match numberType with
      | .int8 | .uint8 => false
      | _ => endiannes == some Endianness.littleEndian
    if byteWidth numberType ≤ buffer.length then
      .ok (.num (applyOptions multiplayer precision
        ((readNumeric numberType isLittleEndian buffer : Int) : Rat)))
    else
      .error (.itemError dataItem.key dataItem.offset)
  | .boolean => .ok (.bool (buffer.any (fun byte => decide (0 < byte))))

/-- `decodedDataAcc[dataItem.key]` lookup (`Object.hasOwn` + read). -/
def getKey : List (String × JSValue) → String → Option JSValue
  | [], _ => none
  | (k', v') :: rest, k => if k' = k then some v' else getKey rest k

/-- `decodedDataAcc[dataItem.key] = value`: overwrite in place, or append a
new own property. -/
def setKey : List (String × JSValue) → String → JSValue → List (String × JSValue)
  | [], k, v => [(k, v)]
  | (k', v') :: rest, k, v =>
    if k' = k then (k', v) :: rest else (k', v') :: setKey rest k v

/-- The duck-typed repeated-key combination in `ResponseDecoder.decode`:
`(typeof existing === 'object' && existing.length === undefined) ||
typeof existing !== 'object'` wraps `[existingValue, value]`; otherwise the
existing array-like is spread, `[...existingValue, value]`.  Spreading a
`Uint8Array` yields its bytes as numbers. -/
def accumulate (existingValue value : JSValue) : JSValue :=
  match existingValue with
  | .bytes b => .arr (b.map (fun x => JSValue.num (x : Rat)) ++ [value])
  | .arr l => .arr (l ++ [value])
  | e => .arr [e, value]

/-- The `for (const dataItem of responseDefinition.items)` loop of
`ResponseDecoder.decode`, with the accumulator's repeated-key handling; a
thrown item error aborts the loop and discards the accumulator. -/
def decodeItems (responseBuffer : List Nat) :
    List ItemDescription → List (String × JSValue) →
    Except DecodeError (List (String × JSValue))
  | [], decodedDataAcc => .ok decodedDataAcc
  | dataItem :: rest, decodedDataAcc =>
    match itemValue responseBuffer dataItem with
    | .error e => .error e
    | .ok value =>
      let newValue :=
        match getKey decodedDataAcc dataItem.key with
        | some existingValue => accumulate existingValue value
        | none => value
      decodeItems responseBuffer rest (setKey decodedDataAcc dataItem.key newValue)

/-- `ResponseDecoder.decode`: resolve the Response Definition by signature
(throwing on an unknown signature), then walk the items. -/
def ResponseDecoder.decode (protocol : ProtocolSpecification)
    (responseSignature responseBuffer : List Nat) :
    Except DecodeError (List (String × JSValue)) :=
  match getResponseBySignature protocol responseSignature with
  | none => .error (.unknownSignature responseSignature)
  | some responseDefinition => decodeItems responseBuffer responseDefinition.items []

/-! ## Protocol validation and decoder construction -/

/-- `ResponseDecoder.validateProtocol`: every response's summed item
`byteLength`s must equal its declared `length`.  (The source's `catch`
block, with its out-of-scope `errors.push`, is unreachable here: nothing in
the reduce throws.) -/
def validateProtocol (protocol : ProtocolSpecification) : Bool :=
  protocol.responses.all (fun response =>
    (response.items.foldl (fun byteSum itemDescription =>
      byteSum + itemDescription.byteLength) 0) == response.length)

/-- First signature bytes of two distinct responses collide. -/
def hasDuplicateSignatureFirstByte (protocol : ProtocolSpecification) : Bool :=
  let firstBytes := protocol.responses.map (fun r => r.signature.get? 0)
  firstBytes.any (fun b => 2 ≤ firstBytes.count b)

/-- Modelled from the spec: `unpackProtocol` (utils/unpackProtocol) is not
under src/.  Spec §4.1: "if ... two responses share a signature
first-byte, the unpacker reports a structured validation error naming the
offending response(s); it MUST NOT silently repair."  Offset
materialization and default filling are not modelled; the claims quantify
over already-resolved protocols. -/
def unpackProtocol (packedProtocol : ProtocolSpecification) :
    Except String ProtocolSpecification :=
  if hasDuplicateSignatureFirstByte packedProtocol then
    .error "duplicate signature first byte"
  else
    .ok packedProtocol

/-- The `ResponseDecoder` constructor: unpack, then validate; throw when
validation fails. -/
def ResponseDecoder.construct (packedProtocol : ProtocolSpecification) :
    Except String ProtocolSpecification :=
  match unpackProtocol packedProtocol with
  | .error e => .error e
  | .ok protocol =>
    if validateProtocol protocol then .ok protocol
    else .error "protocol invalid"

/-! ## Frame assembly (JKBMS.handleNotification and helpers) -/

/-- `JKBMS.doesStartWithSegmentHeader`:
`buffer.byteLength > segmentHeader.byteLength && segmentHeader.every((value, i) => value === buffer[i])`.
Under the length guard every compared index is in range, so the `every` is
the statement that the header is the prefix of the buffer. -/
def doesStartWithSegmentHeader (protocol : ProtocolSpecification)
    (buffer : List Nat) : Bool :=
  decide (protocol.segmentHeader.length < buffer.length) &&
    buffer.take protocol.segmentHeader.length == protocol.segmentHeader

/-- `JKBMS.isSegmentComplete`: headerless segments are never complete;
otherwise complete iff the buffer has reached (or passed, with a warning)
the response's declared length. -/
def isSegmentComplete (protocol : ProtocolSpecification) (segment : List Nat)
    (responseDefinition : ResponseDefinition) : Bool :=
  if ¬ doesStartWithSegmentHeader protocol segment then false
  else if segment.length = responseDefinition.length then true
  else if segment.length > responseDefinition.length then true
  else false

/-- `JKBMS.isChecksumCorrect`: the transmitted checksum is `segment.at(-1)`;
the calculated one is `calculateChecksum(segment.slice(0, -1))`. -/
def isChecksumCorrect (segment : List Nat) : Bool :=
  match segment.getLast? with
  | none => false
  | some checksum => checksum == calculateChecksum segment.dropLast

/-- `JKBMS.getSegmentType`: the byte immediately following the segment
header (always in range when the segment starts with the header). -/
def getSegmentType (protocol : ProtocolSpecification) (segment : List Nat) : Nat :=
  segment.getD protocol.segmentHeader.length 0

/-- The assembly step of `JKBMS.handleNotification`: a fragment starting
with the segment header reseeds the buffer (after a flush); otherwise it is
appended to a buffer that already starts with the header; otherwise the
orphan fragment is dropped (`none`). -/
def assembledBuffer (protocol : ProtocolSpecification)
    (responseBuffer fragment : List Nat) : Option (List Nat) :=
  if doesStartWithSegmentHeader protocol fragment then
    some fragment
  else if doesStartWithSegmentHeader protocol responseBuffer then
    some (responseBuffer ++ fragment)
  else
    none

/-- Observable outcome of one `handleNotification` call: the response
buffer it leaves behind, whether `registerActivity` ran, which response
decodes were attempted (`decoder.decode` invocations, by response name),
and which decoded records were emitted through `onDataReceived` (by data
type). -/
structure NotifResult where
  buffer : List Nat
  registeredActivity : Bool
  decodeCalls : List String
  emitted : List String
deriving DecidableEq

/-- The body of `JKBMS.handleNotification` after assembly: segment-type
screening, completeness, checksum, decode, and the flushes.  `decodeFn`
stands for `this.decoder.decode` (dataType, signature, buffer).  Note the
inner `catch` around decoding returns without flushing. -/
def processAssembled (protocol : ProtocolSpecification)
    (decodeFn : String → List Nat → List Nat → Except DecodeError (List (String × JSValue)))
    (rb : List Nat) : NotifResult :=
  let segmentType := getSegmentType protocol rb
  let expectedSegments := protocol.responses.map (fun r => r.signature.get? 0)
  if some segmentType ∈ expectedSegments then
    match getResponseBySignature protocol [segmentType] with
    | none => ⟨[], true, [], []⟩
    | some responseDefinition =>
      if isSegmentComplete protocol rb responseDefinition then
        if isChecksumCorrect rb then
          match decodeFn responseDefinition.dataType [segmentType] rb with
          | .ok _ => ⟨[], true, [responseDefinition.name], [responseDefinition.dataType]⟩
          | .error _ => ⟨rb, true, [responseDefinition.name], []⟩
        else ⟨[], true, [], []⟩
      else ⟨rb, true, [], []⟩
  else ⟨rb, true, [], []⟩

/-- `JKBMS.handleNotification`: `registerActivity()` runs first in every
case; empty notifications return early; orphan fragments are dropped with
the buffer unchanged. -/
def handleNotification (protocol : ProtocolSpecification)
    (decodeFn : String → List Nat → List Nat → Except DecodeError (List (String × JSValue)))
    (responseBuffer fragment : List Nat) : NotifResult :=
  if fragment.length = 0 then ⟨responseBuffer, true, [], []⟩
  else
    match assembledBuffer protocol responseBuffer fragment with
    | none => ⟨responseBuffer, true, [], []⟩
    | some rb => processAssembled protocol decodeFn rb

/-! ## Command transmission (JKBMS.sendCommand) -/

inductive SAction where
  | registerActivityAct
  | writeWithResponse (buffer : List Nat)
  | writeWithoutResponse (buffer : List Nat)
  | waited (ms : Nat)
deriving DecidableEq

/-- `JKBMS.sendCommand`: require a characteristic, resolve the command by
name, construct the payload (which may throw on overflow, before any
transport call), write with-response iff a payload was supplied, then idle
`command.wait` ms when declared.  The returned list is the trace of
transport-facing actions; the per-command `setTimeout` bookkeeping has no
observable effect on it and is not modelled. -/
def sendCommand (protocol : ProtocolSpecification) (hasCharacteristic : Bool)
    (commandName : String) (payload : Option (List Nat)) :
    List SAction × Except CommandError Unit :=
  if ¬ hasCharacteristic then ([], .error .noCharacteristic)
  else
    match getCommandByName protocol commandName with
    | none => ([], .error (.unknownCommand commandName))
    | some command =>
      match constructCommandPayload protocol command (payload.getD []) with
      | .error e => ([], .error e)
      | .ok preparedCommand =>
        let writeAction :=
          match payload with
          | some _ => SAction.writeWithResponse preparedCommand
          | none => SAction.writeWithoutResponse preparedCommand
        let waitActions :=
          if command.wait ≠ 0 then [SAction.waited command.wait] else []
        (writeAction :: waitActions, .ok ())

/-! ## Session state and disconnect (JKBMS.disconnect, JKBMS.reset) -/

inductive DeviceStatus where
  | disconnected | scanning | connecting | connected
deriving DecidableEq

structure SessionState where
  status : DeviceStatus
  deviceIdenticator : Option (String × String)
  cache : List (String × List (String × JSValue))
  characteristic : Bool
  bluetoothDevice : Bool
  inactivityTimeout : Option Nat
  responseBuffer : List Nat

inductive DEvent where
  | warn
  | stopNotifications
  | gattDisconnect
  | waited (ms : Nat)
  | onDisconnected (reason : String)
  | onStatusChange (status : DeviceStatus)
deriving DecidableEq

/-- The state `JKBMS.reset` leaves behind: status `disconnected`, all
handles and the identificator null, cache empty, inactivity timer cleared,
response buffer flushed. -/
def resetSessionState : SessionState :=
  ⟨DeviceStatus.disconnected, none, [], false, false, none, []⟩

/-- `JKBMS.disconnect(reason)`: warn when already disconnected or without a
device (the early `return` on that branch is commented out in the source,
so execution continues); unless the reason is `'external'`, best-effort
stop notifications, wait 100 ms, request GATT disconnect, wait 100 ms;
invoke `onDisconnected(reason)`; then `reset()`, whose `setStatus` fires
`onStatusChange('disconnected')`. -/
def disconnect (s : SessionState) (reason : String) :
    SessionState × List DEvent :=
  let warnEvents :=
    if s.status = DeviceStatus.disconnected ∨ s.bluetoothDevice = false then
      [DEvent.warn]
    else []
  let transportEvents :=
    if reason ≠ "external" then
      (if s.characteristic then [DEvent.stopNotifications] else []) ++
      [DEvent.waited 100] ++
      (if s.bluetoothDevice then [DEvent.gattDisconnect] else []) ++
      [DEvent.waited 100]
    else []
  (resetSessionState,
    warnEvents ++ transportEvents ++
      [DEvent.onDisconnected reason, DEvent.onStatusChange DeviceStatus.disconnected])

/-- Recognizer for `onDisconnected` events. -/
def isOnDisconnected : DEvent → Bool
  | .onDisconnected _ => true
  | _ => false

/-! ## Derived notions used in the statements -/

/-- The values decoded for the items carrying key `k`, in declaration
order (the per-occurrence results of the decode loop). -/
def itemValuesFor (responseBuffer : List Nat) (items : List ItemDescription)
    (k : String) : Except DecodeError (List JSValue) :=
  match items with
  | [] => .ok []
  | it :: rest =>
    if it.key = k then
      match itemValue responseBuffer it, itemValuesFor responseBuffer rest k with
      | .ok v, .ok vs => .ok (v :: vs)
      | .error e, _ => .error e
      | .ok _, .error e => .error e
    else itemValuesFor responseBuffer rest k

/-- One repeated-key combination step on the stored value for a key. -/
def accStep (existingValue : Option JSValue) (value : JSValue) : Option JSValue :=
  some (match existingValue with
    | some e => accumulate e value
    | none => value)

/-- A value the duck-typed accumulator wraps rather than spreads: neither a
`Uint8Array` nor an array. -/
def notArrayLike : JSValue → Bool
  | .bytes _ => false
  | .arr _ => false
  | _ => true

/-- The only decode-failure condition: a numeric item whose clamped slice
holds fewer bytes than the `DataView` getter reads. -/
def numericShort (responseBuffer : List Nat) (dataItem : ItemDescription) : Bool :=
  match dataItem.type with
  | .numeric numberType _ _ _ =>
    decide ((sliceOf responseBuffer dataItem.offset dataItem.byteLength).length
      < byteWidth numberType)
  | _ => false

/-! ## Concrete instances for witnesses and counterexamples -/

/-- A live-data response of total length 6: header (4 bytes), one type
byte, one checksum byte. -/
def sampleResponse : ResponseDefinition :=
  ⟨"LiveR", "LIVE_DATA", [2], 6,
    [⟨"flag", 4, 1, ItemType.boolean⟩, ⟨"check", 5, 1, ItemType.boolean⟩]⟩

def sampleCommand : CommandDefinition :=
  ⟨"GET_SETTINGS", [151, 0, 0, 0], 1000, 0⟩

def sampleProtocol : ProtocolSpecification :=
  ⟨"JK_BMS_02", [85, 170, 235, 144], [170, 85, 144, 235], 20, 5000, 3000,
    [sampleCommand], [sampleResponse]⟩

/-- A response whose items repeat the key `voltages` three times, each a
2-byte numeric (scenario H of the spec). -/
def voltagesResponse : ResponseDefinition :=
  ⟨"VoltR", "LIVE_DATA", [4], 6,
    [⟨"voltages", 0, 2, ItemType.numeric NumberType.uint16 none none none⟩,
     ⟨"voltages", 2, 2, ItemType.numeric NumberType.uint16 none none none⟩,
     ⟨"voltages", 4, 2, ItemType.numeric NumberType.uint16 none none none⟩]⟩

def voltagesProtocol : ProtocolSpecification :=
  ⟨"VOLT_P", [85, 170, 235, 144], [170, 85, 144, 235], 20, 5000, 3000,
    [], [voltagesResponse]⟩

/-- A response repeating the key `x` over two raw 1-byte items. -/
def dupRawResponse : ResponseDefinition :=
  ⟨"RawR", "SETTINGS", [8], 2,
    [⟨"x", 0, 1, ItemType.raw none⟩, ⟨"x", 1, 1, ItemType.raw none⟩]⟩

def dupRawProtocol : ProtocolSpecification :=
  ⟨"RAW_P", [85, 170, 235, 144], [170, 85, 144, 235], 20, 5000, 3000,
    [], [dupRawResponse]⟩

/-- A response with a single 4-byte raw item. -/
def shortRawResponse : ResponseDefinition :=
  ⟨"ShortR", "SETTINGS", [7], 4, [⟨"r", 0, 4, ItemType.raw none⟩]⟩

def shortRawProtocol : ProtocolSpecification :=
  ⟨"SHORT_P", [85, 170, 235, 144], [170, 85, 144, 235], 20, 5000, 3000,
    [], [shortRawResponse]⟩

/-- A response mixing a boolean item and a 2-byte numeric item. -/
def mixedResponse : ResponseDefinition :=
  ⟨"MixR", "SETTINGS", [9], 3,
    [⟨"a", 0, 1, ItemType.boolean⟩,
     ⟨"v", 1, 2, ItemType.numeric NumberType.uint16 none none none⟩]⟩

def mixedProtocol : ProtocolSpecification :=
  ⟨"MIX_P", [85, 170, 235, 144], [170, 85, 144, 235], 20, 5000, 3000,
    [], [mixedResponse]⟩

/-- A protocol whose single response declares length 5 but whose items sum
to 2 bytes. -/
def mismatchedProtocol : ProtocolSpecification :=
  ⟨"BAD_LEN_P", [85, 170, 235, 144], [170, 85, 144, 235], 20, 5000, 3000,
    [], [⟨"BadR", "SETTINGS", [1], 5, [⟨"a", 0, 2, ItemType.boolean⟩]⟩]⟩

/-- A protocol with two responses sharing the signature first byte `3`. -/
def duplicateSigProtocol : ProtocolSpecification :=
  ⟨"DUP_SIG_P", [85, 170, 235, 144], [170, 85, 144, 235], 20, 5000, 3000,
    [], [⟨"R1", "SETTINGS", [3], 0, []⟩, ⟨"R2", "LIVE_DATA", [3], 0, []⟩]⟩

/-- A connected session with live handles, an armed watchdog, and a
non-empty identity. -/
def connectedState : SessionState :=
  ⟨DeviceStatus.connected, some ("dev-id", "JK-B2A24S"), [], true, true, some 1, []⟩

/-! # Theorems -/

/-- **C1.** For every command built by the command transmitter
(precondition: commandHeader length + code length + payload length ≤
`protocol.commandLength` and `commandLength ≥ 1`), the constructed buffer
`c` has length exactly `protocol.commandLength`, its first `L-1` bytes are
commandHeader, then `command.code`, then payload, then zero padding, and
its last byte equals the sum of all preceding bytes AND 0xFF. -/
theorem C1_command_buffer_layout (protocol : ProtocolSpecification)
    (command : CommandDefinition) (payload : List Nat)
    (hfit : (protocol.commandHeader ++ command.code ++ payload).length ≤
      protocol.commandLength)
    (hpos : 1 ≤ protocol.commandLength) :
    ∃ c, constructCommandPayload protocol command payload = Except.ok c ∧
      c.length = protocol.commandLength ∧
      c.dropLast = ((protocol.commandHeader ++ command.code ++ payload) ++
        List.replicate protocol.commandLength 0).take (protocol.commandLength - 1) ∧
      c.getLast? = some ((c.dropLast.foldl (fun acc byte => acc + byte) 0) % 256) := by
  have hnover : ¬ (protocol.commandLength ≠ 0 ∧
      (protocol.commandHeader ++ command.code ++ payload).length >
        protocol.commandLength) := by
    rintro ⟨-, hgt⟩
    omega
  set temp := protocol.commandHeader ++ command.code ++ payload with htemp
  set padded := temp ++ List.replicate protocol.commandLength 0 with hpadded
  set cb := padded.take protocol.commandLength with hcbdef
  have hpadded_len : protocol.commandLength ≤ padded.length := by
    simp [hpadded]
  have hcb_len : cb.length = protocol.commandLength := by
    simp [hcbdef, List.length_take]
    omega
  have hcb_ne : cb.isEmpty = false := by
    cases hc : cb with
    | nil =>
      rw [hc] at hcb_len
      simp at hcb_len
      omega
    | cons a t => simp
  have key : constructCommandPayload protocol command payload =
      Except.ok (cb.dropLast ++ [calculateChecksum cb.dropLast]) := by
    rw [constructCommandPayload]
    simp only []
    rw [if_neg hnover]
    show Except.ok (setLastByte cb (calculateChecksum cb.dropLast)) =
      Except.ok (cb.dropLast ++ [calculateChecksum cb.dropLast])
    rw [setLastByte, if_neg (by simp [hcb_ne])]
  refine ⟨cb.dropLast ++ [calculateChecksum cb.dropLast], key, ?_, ?_, ?_⟩
  · simp [List.length_dropLast, hcb_len]
    omega
  · have hdl : cb.dropLast = padded.take (protocol.commandLength - 1) := by
      rw [List.dropLast_eq_take, hcb_len, hcbdef, List.take_take,
        Nat.min_eq_left (Nat.sub_le _ _)]
    rw [List.dropLast_concat, hdl]
  · rw [List.getLast?_concat, List.dropLast_concat]
    rfl

/-- Witness for C1 at a concrete protocol, command, and payload. -/
theorem C1_command_buffer_layout_witness :
    (sampleProtocol.commandHeader ++ sampleCommand.code ++ [1]).length ≤
      sampleProtocol.commandLength ∧
    ∃ c, constructCommandPayload sampleProtocol sampleCommand [1] = Except.ok c ∧
      c.length = sampleProtocol.commandLength ∧
      c.dropLast = ((sampleProtocol.commandHeader ++ sampleCommand.code ++ [1]) ++
        List.replicate sampleProtocol.commandLength 0).take (sampleProtocol.commandLength - 1) ∧
      c.getLast? = some ((c.dropLast.foldl (fun acc byte => acc + byte) 0) % 256) :=
  ⟨by decide, C1_command_buffer_layout sampleProtocol sampleCommand [1]
    (by decide) (by decide)⟩

/-- Appending to a buffer that starts with the segment header preserves
that property. -/
theorem doesStartWithSegmentHeader_append (protocol : ProtocolSpecification)
    (b f : List Nat) (h : doesStartWithSegmentHeader protocol b = true) :
    doesStartWithSegmentHeader protocol (b ++ f) = true := by
  unfold doesStartWithSegmentHeader at h ⊢
  simp only [Bool.and_eq_true, decide_eq_true_eq, beq_iff_eq] at h ⊢
  obtain ⟨hlt, htake⟩ := h
  refine ⟨?_, ?_⟩
  · simp only [List.length_append]
    omega
  · rw [List.take_append_of_le_length (Nat.le_of_lt hlt), htake]

/-- Whatever `assembledBuffer` produces starts with the segment header. -/
theorem assembledBuffer_startsWith {protocol : ProtocolSpecification}
    {buffer fragment rb : List Nat}
    (h : assembledBuffer protocol buffer fragment = some rb) :
    doesStartWithSegmentHeader protocol rb = true := by
  unfold assembledBuffer at h
  split at h
  · cases h
    assumption
  · split at h
    · cases h
      exact doesStartWithSegmentHeader_append _ _ _ (by assumption)
    · cases h

/-- A header-led buffer that has reached the declared length is complete. -/
theorem isSegmentComplete_of_le {protocol : ProtocolSpecification}
    {rb : List Nat} {rd : ResponseDefinition}
    (hstart : doesStartWithSegmentHeader protocol rb = true)
    (hlen : rd.length ≤ rb.length) :
    isSegmentComplete protocol rb rd = true := by
  by_cases he : rb.length = rd.length
  · simp [isSegmentComplete, hstart, he]
  · have hgt : rd.length < rb.length :=
      Nat.lt_of_le_of_ne hlen (fun hh => he hh.symm)
    simp [isSegmentComplete, hstart, he, hgt]

/-- A successful signature lookup implies the segment type passes the
`expectedSegments.includes` screen. -/
theorem mem_expected_of_getResponseBySignature {protocol : ProtocolSpecification}
    {st : Nat} {rd : ResponseDefinition}
    (hsig : getResponseBySignature protocol [st] = some rd) :
    some st ∈ protocol.responses.map (fun r => r.signature.get? 0) := by
  unfold getResponseBySignature at hsig
  have hmem := List.mem_of_find?_eq_some hsig
  have hpred := List.find?_some hsig
  simp only [beq_iff_eq] at hpred
  exact List.mem_map.mpr ⟨rd, hmem, hpred⟩

/-- **C2.** For every assembled response buffer that begins with the
segment header, has a known signature byte, and has reached the response's
declared length, if its last byte differs from (sum of all preceding
bytes) AND 0xFF then the notification handler discards the buffer
(flushes it to empty) and emits nothing: the decoder is not invoked and
`onDataReceived` is not called. -/
theorem C2_checksum_failure_discards (protocol : ProtocolSpecification)
    (decodeFn : String → List Nat → List Nat → Except DecodeError (List (String × JSValue)))
    (buffer fragment rb : List Nat) (rd : ResponseDefinition)
    (hfrag : fragment ≠ [])
    (hasm : assembledBuffer protocol buffer fragment = some rb)
    (hsig : getResponseBySignature protocol [getSegmentType protocol rb] = some rd)
    (hlen : rd.length ≤ rb.length)
    (hck : isChecksumCorrect rb = false) :
    handleNotification protocol decodeFn buffer fragment = ⟨[], true, [], []⟩ := by
  unfold handleNotification
  rw [if_neg (by simp [hfrag]), hasm]
  simp only [processAssembled]
  rw [if_pos (mem_expected_of_getResponseBySignature hsig), hsig]
  simp only []
  rw [if_pos (isSegmentComplete_of_le (assembledBuffer_startsWith hasm) hlen),
    if_neg (by simp [hck])]

/-- Witness for C2: a complete 6-byte segment whose final byte 99 differs
from the additive checksum 124 of its first five bytes. -/
theorem C2_checksum_failure_discards_witness :
    handleNotification sampleProtocol (fun _ _ _ => Except.ok []) []
      [85, 170, 235, 144, 2, 99] = ⟨[], true, [], []⟩ :=
  C2_checksum_failure_discards sampleProtocol (fun _ _ _ => Except.ok [])
    [] [85, 170, 235, 144, 2, 99] [85, 170, 235, 144, 2, 99] sampleResponse
    (by decide) rfl rfl (by decide) (by decide)

/-- **C3, counterexample.** A complete, checksum-valid segment handed to a
throwing decoder: the inner `catch` returns without flushing, so the
response buffer is retained, refuting "flushes the buffer to empty in
every case". -/
theorem C3_counterexample_decode_throw_keeps_buffer :
    (handleNotification sampleProtocol
      (fun _ _ _ => Except.error (DecodeError.itemError "k" 0)) []
      [85, 170, 235, 144, 2, 124]).decodeCalls = ["LiveR"] ∧
    (handleNotification sampleProtocol
      (fun _ _ _ => Except.error (DecodeError.itemError "k" 0)) []
      [85, 170, 235, 144, 2, 124]).buffer = [85, 170, 235, 144, 2, 124] ∧
    (handleNotification sampleProtocol
      (fun _ _ _ => Except.error (DecodeError.itemError "k" 0)) []
      [85, 170, 235, 144, 2, 124]).buffer ≠ [] :=
  ⟨rfl, rfl, by decide⟩

/-- **C3, amended.** When a complete, checksum-valid segment is handed to
the Response Decoder, the handler flushes the buffer only when decode
succeeds; when decode throws, the inner catch logs and returns with the
buffer retained (not flushed). -/
theorem C3_flush_only_on_decode_success (protocol : ProtocolSpecification)
    (decodeFn : String → List Nat → List Nat → Except DecodeError (List (String × JSValue)))
    (buffer fragment rb : List Nat) (rd : ResponseDefinition)
    (hfrag : fragment ≠ [])
    (hasm : assembledBuffer protocol buffer fragment = some rb)
    (hsig : getResponseBySignature protocol [getSegmentType protocol rb] = some rd)
    (hlen : rd.length ≤ rb.length)
    (hck : isChecksumCorrect rb = true) :
    handleNotification protocol decodeFn buffer fragment =
      match decodeFn rd.dataType [getSegmentType protocol rb] rb with
      | .ok _ => ⟨[], true, [rd.name], [rd.dataType]⟩
      | .error _ => ⟨rb, true, [rd.name], []⟩ := by
  unfold handleNotification
  rw [if_neg (by simp [hfrag]), hasm]
  simp only [processAssembled]
  rw [if_pos (mem_expected_of_getResponseBySignature hsig), hsig]
  simp only []
  rw [if_pos (isSegmentComplete_of_le (assembledBuffer_startsWith hasm) hlen),
    if_pos hck]

/-- Witness for C3 (amended): the same checksum-valid segment with a
succeeding decoder is decoded, emitted, and the buffer is flushed. -/
theorem C3_flush_only_on_decode_success_witness :
    handleNotification sampleProtocol (fun _ _ _ => Except.ok []) []
      [85, 170, 235, 144, 2, 124] = ⟨[], true, ["LiveR"], ["LIVE_DATA"]⟩ :=
  C3_flush_only_on_decode_success sampleProtocol (fun _ _ _ => Except.ok [])
    [] [85, 170, 235, 144, 2, 124] [85, 170, 235, 144, 2, 124] sampleResponse
    (by decide) rfl rfl (by decide) (by decide)

/-- **C10.** The framer recognizes a byte sequence as starting with the
segment header only when strictly longer than the header: a fragment whose
bytes are exactly the segment header is not accepted as seeding a new
segment and, with an empty buffer, is dropped as an orphan fragment (no
decode, no emission, buffer still empty). -/
theorem C10_header_exact_fragment_dropped (protocol : ProtocolSpecification)
    (decodeFn : String → List Nat → List Nat → Except DecodeError (List (String × JSValue))) :
    doesStartWithSegmentHeader protocol protocol.segmentHeader = false ∧
    handleNotification protocol decodeFn [] protocol.segmentHeader =
      ⟨[], true, [], []⟩ := by
  have h1 : doesStartWithSegmentHeader protocol protocol.segmentHeader = false := by
    unfold doesStartWithSegmentHeader
    simp
  refine ⟨h1, ?_⟩
  unfold handleNotification
  by_cases hh : protocol.segmentHeader.length = 0
  · rw [if_pos hh]
  · rw [if_neg hh]
    have h0 : doesStartWithSegmentHeader protocol ([] : List Nat) = false := by
      unfold doesStartWithSegmentHeader
      simp
    unfold assembledBuffer
    rw [h1, h0]
    simp

/-- **C4, counterexample.** Re-entering `disconnect` on an
already-disconnected session is not a no-op apart from a warning: the
early return is commented out in the source, so `onDisconnected` fires
again and `reset` re-runs. -/
theorem C4_counterexample_reentrant_disconnect_not_noop :
    DEvent.onDisconnected "user" ∈
      (disconnect (disconnect connectedState "user").1 "user").2 ∧
    (disconnect (disconnect connectedState "user").1 "user").2 ≠
      [DEvent.warn] := by
  decide

/-- **C4, amended.** `disconnect` is idempotent in state: every call ends
in the reset terminal state (disconnected, null handles, empty cache,
empty buffer, cleared timer), and a second call yields the same state.
However every call — including one on an already-disconnected session —
invokes `onDisconnected` exactly once; the already-disconnected guard only
logs a warning. -/
theorem C4_disconnect_idempotent_state_repeat_callback (s : SessionState)
    (r r2 : String) :
    (disconnect s r).1 = resetSessionState ∧
    (disconnect (disconnect s r).1 r2).1 = (disconnect s r).1 ∧
    (disconnect s r).2.filter isOnDisconnected = [DEvent.onDisconnected r] ∧
    (s.status = DeviceStatus.disconnected →
      DEvent.warn ∈ (disconnect s r).2) := by
  refine ⟨rfl, rfl, ?_, ?_⟩
  · simp only [disconnect]
    split_ifs <;> simp [isOnDisconnected]
  · intro hs
    simp [disconnect, hs]

/-- Witness for C4 (amended) at the already-disconnected state. -/
theorem C4_disconnect_idempotent_witness :
    (disconnect resetSessionState "user").1 = resetSessionState ∧
    (disconnect (disconnect resetSessionState "user").1 "user").1 =
      (disconnect resetSessionState "user").1 ∧
    (disconnect resetSessionState "user").2.filter isOnDisconnected =
      [DEvent.onDisconnected "user"] ∧
    DEvent.warn ∈ (disconnect resetSessionState "user").2 := by
  have h := C4_disconnect_idempotent_state_repeat_callback resetSessionState
    "user" "user"
  exact ⟨h.1, h.2.1, h.2.2.1, h.2.2.2 rfl⟩

/-- **C5, counterexample.** A successful `sendCommand` performs a transport
write with no `registerActivity` invocation anywhere in its trace,
refuting "registerActivity is invoked by sendCommand before writing". -/
theorem C5_counterexample_send_without_registerActivity :
    sendCommand sampleProtocol true "GET_SETTINGS" none =
      ([SAction.writeWithoutResponse
        [170, 85, 144, 235, 151, 0, 0, 0, 0, 0, 0, 0, 0, 0, 0, 0, 0, 0, 0, 17]],
        Except.ok ()) ∧
    SAction.registerActivityAct ∉
      (sendCommand sampleProtocol true "GET_SETTINGS" none).1 :=
  ⟨rfl, by decide⟩

/-- **C5, amended.** `registerActivity` is invoked before any other work in
`handleNotification`, but `sendCommand` never invokes it: command writes do
not rearm the inactivity watchdog. -/
theorem C5_amended_watchdog_rearm_sites :
    (∀ (protocol : ProtocolSpecification) (hasCharacteristic : Bool)
      (commandName : String) (payload : Option (List Nat)),
      SAction.registerActivityAct ∉
        (sendCommand protocol hasCharacteristic commandName payload).1) ∧
    (∀ (protocol : ProtocolSpecification)
      (decodeFn : String → List Nat → List Nat → Except DecodeError (List (String × JSValue)))
      (responseBuffer fragment : List Nat),
      (handleNotification protocol decodeFn responseBuffer fragment).registeredActivity
        = true) := by
  constructor
  · intro protocol hasCharacteristic commandName payload
    unfold sendCommand
    split
    · simp
    · split
      · simp
      · split
        · simp
        · cases payload <;> split <;> simp
  · intro protocol decodeFn responseBuffer fragment
    simp only [handleNotification, processAssembled]
    repeat' split
    all_goals rfl

/-- **C6.** If commandHeader length + command code length + supplied
payload length exceeds `protocol.commandLength` (with a truthy
`commandLength`, as in the JK protocol's 20), `sendCommand` fails with a
command-overflow error and no transport write is performed. -/
theorem C6_overflow_no_write (protocol : ProtocolSpecification)
    (commandName : String) (payload : List Nat) (command : CommandDefinition)
    (hcmd : getCommandByName protocol commandName = some command)
    (hpos : protocol.commandLength ≠ 0)
    (hover : protocol.commandLength <
      (protocol.commandHeader ++ command.code ++ payload).length) :
    sendCommand protocol true commandName (some payload) =
      ([], Except.error (CommandError.overflow command.name
        (protocol.commandHeader ++ command.code ++ payload).length
        protocol.commandLength)) := by
  have hcp : constructCommandPayload protocol command payload =
      Except.error (.overflow command.name
        (protocol.commandHeader ++ command.code ++ payload).length
        protocol.commandLength) := by
    rw [constructCommandPayload]
    simp only []
    rw [if_pos ⟨hpos, hover⟩]
  unfold sendCommand
  rw [if_neg (by simp), hcmd]
  simp only [Option.getD]
  rw [hcp]

/-- Witness for C6, spec scenario E: commandLength 20, header 4 bytes,
code 4 bytes, payload 13 bytes. -/
theorem C6_overflow_no_write_witness :
    sendCommand sampleProtocol true "GET_SETTINGS"
      (some [1, 2, 3, 4, 5, 6, 7, 8, 9, 10, 11, 12, 13]) =
      ([], Except.error (CommandError.overflow "GET_SETTINGS" 21 20)) :=
  C6_overflow_no_write sampleProtocol "GET_SETTINGS"
    [1, 2, 3, 4, 5, 6, 7, 8, 9, 10, 11, 12, 13] sampleCommand rfl
    (by decide) (by decide)

/-- **C7.** Decoder construction fails for every protocol in which some
response's sum of item byteLengths disagrees with its declared length, and
for every protocol in which two Response Definitions share the same
signature first byte: a validation error is reported and construction
fails rather than silently repairing. -/
theorem C7_construct_fails_on_invalid (p : ProtocolSpecification)
    (h : (∃ r ∈ p.responses,
        (r.items.foldl (fun byteSum it => byteSum + it.byteLength) 0) ≠ r.length) ∨
      hasDuplicateSignatureFirstByte p = true) :
    ∃ e, ResponseDecoder.construct p = Except.error e := by
  by_cases hdup : hasDuplicateSignatureFirstByte p = true
  · exact ⟨"duplicate signature first byte",
      by simp [ResponseDecoder.construct, unpackProtocol, hdup]⟩
  · have hlen : ∃ r ∈ p.responses,
        (r.items.foldl (fun byteSum it => byteSum + it.byteLength) 0) ≠ r.length := by
      rcases h with h | h
      · exact h
      · exact absurd h hdup
    have hval : validateProtocol p = false := by
      rcases hlen with ⟨r, hr, hne⟩
      cases hvb : validateProtocol p with
      | false => rfl
      | true =>
        exfalso
        unfold validateProtocol at hvb
        rw [List.all_eq_true] at hvb
        have := hvb r hr
        simp only [beq_iff_eq] at this
        exact hne this
    rw [Bool.not_eq_true] at hdup
    exact ⟨"protocol invalid",
      by simp [ResponseDecoder.construct, unpackProtocol, hdup, hval]⟩

/-- Witness for C7: a length-mismatched protocol and a duplicate-signature
protocol both fail construction. -/
theorem C7_construct_fails_witness :
    (∃ e, ResponseDecoder.construct mismatchedProtocol = Except.error e) ∧
    (∃ e, ResponseDecoder.construct duplicateSigProtocol = Except.error e) := by
  constructor
  · apply C7_construct_fails_on_invalid
    left
    refine ⟨⟨"BadR", "SETTINGS", [1], 5, [⟨"a", 0, 2, ItemType.boolean⟩]⟩, ?_, ?_⟩
    · exact List.mem_singleton.mpr rfl
    · decide
  · apply C7_construct_fails_on_invalid
    right
    decide

/-- Writing a key leaves it readable with the written value. -/
theorem getKey_setKey_self (acc : List (String × JSValue)) (k : String)
    (v : JSValue) : getKey (setKey acc k v) k = some v := by
  induction acc with
  | nil => simp [setKey, getKey]
  | cons p rest ih =>
    obtain ⟨k0, v0⟩ := p
    by_cases h : k0 = k
    · simp [setKey, getKey, h]
    · simp [setKey, getKey, h, ih]

/-- Writing one key does not change another. -/
theorem getKey_setKey_ne (acc : List (String × JSValue)) (k k' : String)
    (v : JSValue) (h : k ≠ k') :
    getKey (setKey acc k v) k' = getKey acc k' := by
  induction acc with
  | nil => simp [setKey, getKey, h]
  | cons p rest ih =>
    obtain ⟨k0, v0⟩ := p
    by_cases h0 : k0 = k
    · subst h0
      simp [setKey, getKey, h]
    · by_cases h1 : k0 = k'
      · subst h1
        simp [setKey, getKey, h0]
      · simp [setKey, getKey, h0, h1, ih]

/-- Invariant of the decode loop: the stored value under a key is the fold
of the repeated-key combination steps over the values decoded for that
key, in declaration order. -/
theorem decodeItems_getKey (responseBuffer : List Nat) (k : String) :
    ∀ (items : List ItemDescription) (acc record : List (String × JSValue)),
      decodeItems responseBuffer items acc = Except.ok record →
      ∃ vs, itemValuesFor responseBuffer items k = Except.ok vs ∧
        getKey record k = vs.foldl accStep (getKey acc k) := by
  intro items
  induction items with
  | nil =>
    intro acc record h
    simp only [decodeItems] at h
    cases h
    exact ⟨[], rfl, rfl⟩
  | cons it rest ih =>
    intro acc record h
    simp only [decodeItems] at h
    cases hiv : itemValue responseBuffer it with
    | error e =>
      rw [hiv] at h
      cases h
    | ok v =>
      rw [hiv] at h
      set newValue := (match getKey acc it.key with
        | some existingValue => accumulate existingValue v
        | none => v) with hnv
      obtain ⟨vs', hmap, hget⟩ := ih (setKey acc it.key newValue) record h
      by_cases hk : it.key = k
      · subst hk
        refine ⟨v :: vs', ?_, ?_⟩
        · simp [itemValuesFor, hiv, hmap]
        · rw [hget, getKey_setKey_self]
          have hstep : some newValue = accStep (getKey acc it.key) v := by
            cases hg : getKey acc it.key <;> simp [accStep, hnv, hg]
          rw [List.foldl_cons, ← hstep]
      · refine ⟨vs', ?_, ?_⟩
        · simp [itemValuesFor, hk, hmap]
        · rw [hget, getKey_setKey_ne _ _ _ _ hk]

/-- Once the stored value is an array, further occurrences append. -/
theorem foldl_accStep_arr (ws : List JSValue) :
    ∀ l, ws.foldl accStep (some (JSValue.arr l)) = some (JSValue.arr (l ++ ws)) := by
  induction ws with
  | nil =>
    intro l
    simp
  | cons w ws ih =>
    intro l
    simp only [List.foldl_cons]
    rw [show accStep (some (JSValue.arr l)) w = some (JSValue.arr (l ++ [w])) from rfl,
      ih]
    simp

/-- A non-array-like first occurrence is wrapped into a two-element array. -/
theorem accumulate_notArrayLike (v w : JSValue) (hv : notArrayLike v = true) :
    accumulate v w = JSValue.arr [v, w] := by
  cases v with
  | bytes b => simp [notArrayLike] at hv
  | arr l => simp [notArrayLike] at hv
  | num x => rfl
  | str s => rfl
  | bool b => rfl

/-- **C8, counterexample.** Two raw items with the same key: the
first-stored `Uint8Array` is spread into its bytes instead of becoming the
first element of the sequence, so the record does not hold the ordered
sequence of the two decoded values. -/
theorem C8_counterexample_raw_duplicate_spread :
    ResponseDecoder.decode dupRawProtocol [8] [1, 2] =
      Except.ok [("x", JSValue.arr [JSValue.num 1, JSValue.bytes [2]])] ∧
    JSValue.arr [JSValue.num 1, JSValue.bytes [2]] ≠
      JSValue.arr [JSValue.bytes [1], JSValue.bytes [2]] := by
  constructor
  · rfl
  · intro h
    injection h with h1
    injection h1 with h2 h3
    exact JSValue.noConfusion h2

/-- **C8, amended.** For every Response Definition in which the same key
appears n ≥ 2 times, decode returns a record mapping that key to the
ordered sequence of the n decoded values in declaration order, provided
the first occurrence's value is not array-like (not a raw byte slice and
not an array); a raw byte-slice first occurrence is instead spread into
its bytes by the duck-typed accumulator. -/
theorem C8_repeated_keys_coalesce_nonbytes (protocol : ProtocolSpecification)
    (sig responseBuffer : List Nat) (rd : ResponseDefinition)
    (record : List (String × JSValue)) (k : String) (v : JSValue)
    (vs : List JSValue)
    (hsig : getResponseBySignature protocol sig = some rd)
    (hok : ResponseDecoder.decode protocol sig responseBuffer = Except.ok record)
    (hvals : itemValuesFor responseBuffer rd.items k = Except.ok (v :: vs))
    (hv : notArrayLike v = true)
    (hvs : vs ≠ []) :
    getKey record k = some (JSValue.arr (v :: vs)) := by
  unfold ResponseDecoder.decode at hok
  rw [hsig] at hok
  obtain ⟨vs0, hmap, hget⟩ := decodeItems_getKey responseBuffer k rd.items [] record hok
  have hvs0 : vs0 = v :: vs := by
    have := hmap.symm.trans hvals
    injection this
  subst hvs0
  rw [hget]
  cases vs with
  | nil => exact absurd rfl hvs
  | cons w ws =>
    show (v :: w :: ws).foldl accStep none = some (JSValue.arr (v :: w :: ws))
    simp only [List.foldl_cons]
    rw [show accStep none v = some v from rfl,
      show accStep (some v) w = some (accumulate v w) from rfl,
      accumulate_notArrayLike v w hv, foldl_accStep_arr]
    simp

/-- Witness for C8 (amended), spec scenario H: key `voltages` three times,
each a 2-byte numeric, decoded to the ordered sequence of three numbers. -/
theorem C8_repeated_keys_coalesce_witness :
    getKey [("voltages", JSValue.arr [JSValue.num 1, JSValue.num 2, JSValue.num 3])]
      "voltages" = some (JSValue.arr [JSValue.num 1, JSValue.num 2, JSValue.num 3]) :=
  C8_repeated_keys_coalesce_nonbytes voltagesProtocol [4] [0, 1, 0, 2, 0, 3]
    voltagesResponse
    [("voltages", JSValue.arr [JSValue.num 1, JSValue.num 2, JSValue.num 3])]
    "voltages" (JSValue.num 1) [JSValue.num 2, JSValue.num 3]
    rfl rfl rfl rfl (by simp)

/-- Items that are not short numerics always decode to a value. -/
theorem itemValue_ok_of_not_short (responseBuffer : List Nat)
    (it : ItemDescription) (h : numericShort responseBuffer it = false) :
    ∃ v, itemValue responseBuffer it = Except.ok v := by
  obtain ⟨key, offset, byteLength, ty⟩ := it
  cases ty with
  | raw g => cases g <;> exact ⟨_, rfl⟩
  | text e => cases e <;> exact ⟨_, rfl⟩
  | boolean => exact ⟨_, rfl⟩
  | numeric t en m p =>
    simp only [numericShort, decide_eq_false_iff_not, Nat.not_lt] at h
    cases hr : itemValue responseBuffer
        ⟨key, offset, byteLength, ItemType.numeric t en m p⟩ with
    | ok v => exact ⟨v, rfl⟩
    | error e =>
      exfalso
      simp only [itemValue] at hr
      rw [if_pos h] at hr
      cases hr

/-- A short numeric item fails with its key and offset. -/
theorem itemValue_error_of_short (responseBuffer : List Nat)
    (it : ItemDescription) (h : numericShort responseBuffer it = true) :
    itemValue responseBuffer it =
      Except.error (DecodeError.itemError it.key it.offset) := by
  obtain ⟨key, offset, byteLength, ty⟩ := it
  cases ty with
  | raw g => simp [numericShort] at h
  | text e => simp [numericShort] at h
  | boolean => simp [numericShort] at h
  | numeric t en m p =>
    simp only [numericShort, decide_eq_true_eq] at h
    simp only [itemValue]
    rw [if_neg (by omega)]

/-- Without short numerics the whole decode loop succeeds. -/
theorem decodeItems_ok_of_no_short (responseBuffer : List Nat) :
    ∀ (items : List ItemDescription) (acc : List (String × JSValue)),
      (∀ it ∈ items, numericShort responseBuffer it = false) →
      ∃ record, decodeItems responseBuffer items acc = Except.ok record := by
  intro items
  induction items with
  | nil =>
    intro acc h
    exact ⟨acc, rfl⟩
  | cons it rest ih =>
    intro acc h
    obtain ⟨v, hv⟩ := itemValue_ok_of_not_short responseBuffer it (h it (by simp))
    obtain ⟨record, hrec⟩ := ih (setKey acc it.key
      (match getKey acc it.key with
        | some e => accumulate e v
        | none => v)) (fun j hj => h j (by simp [hj]))
    refine ⟨record, ?_⟩
    simp only [decodeItems]
    rw [hv]
    exact hrec

/-- The first short numeric item aborts the decode loop with its key and
offset, regardless of the accumulated record, which is discarded. -/
theorem decodeItems_error_of_short (responseBuffer : List Nat)
    (it : ItemDescription) (post : List ItemDescription)
    (hshort : numericShort responseBuffer it = true) :
    ∀ (pre : List ItemDescription) (acc : List (String × JSValue)),
      (∀ j ∈ pre, numericShort responseBuffer j = false) →
      decodeItems responseBuffer (pre ++ it :: post) acc =
        Except.error (DecodeError.itemError it.key it.offset) := by
  intro pre
  induction pre with
  | nil =>
    intro acc h
    simp only [List.nil_append, decodeItems]
    rw [itemValue_error_of_short responseBuffer it hshort]
  | cons j rest ih =>
    intro acc h
    obtain ⟨v, hv⟩ := itemValue_ok_of_not_short responseBuffer j (h j (by simp))
    simp only [List.cons_append, decodeItems]
    rw [hv]
    exact ih _ (fun x hx => h x (by simp [hx]))

/-- **C9, counterexample.** A buffer strictly shorter than
`offset + byteLength` of a raw item: decode succeeds with the truncated
slice instead of failing, refuting "decode fails ... for every item
variant". -/
theorem C9_counterexample_raw_short_succeeds :
    (1 : Nat) < 0 + 4 ∧
    ResponseDecoder.decode shortRawProtocol [7] [5] =
      Except.ok [("r", JSValue.bytes [5])] :=
  ⟨by decide, rfl⟩

/-- **C9, amended.** decode fails with a decode-failure error naming the
item key and offset exactly when a numeric item's clamped slice is shorter
than its number type's byte width (in particular whenever the buffer is
shorter than offset + numeric width); raw, text and boolean items never
fail on short buffers — they decode the truncated slice — and on a numeric
failure the partially decoded record is discarded. -/
theorem C9_decode_short_buffer_behavior (protocol : ProtocolSpecification)
    (sig responseBuffer : List Nat) (rd : ResponseDefinition)
    (hsig : getResponseBySignature protocol sig = some rd) :
    ((∀ it ∈ rd.items, numericShort responseBuffer it = false) →
      ∃ record, ResponseDecoder.decode protocol sig responseBuffer =
        Except.ok record) ∧
    (∀ pre it post, rd.items = pre ++ it :: post →
      (∀ j ∈ pre, numericShort responseBuffer j = false) →
      numericShort responseBuffer it = true →
      ResponseDecoder.decode protocol sig responseBuffer =
        Except.error (DecodeError.itemError it.key it.offset)) := by
  constructor
  · intro h
    obtain ⟨record, hrec⟩ := decodeItems_ok_of_no_short responseBuffer rd.items [] h
    refine ⟨record, ?_⟩
    unfold ResponseDecoder.decode
    rw [hsig]
    exact hrec
  · intro pre it post hitems hpre hshort
    unfold ResponseDecoder.decode
    rw [hsig]
    simp only []
    rw [hitems]
    exact decodeItems_error_of_short responseBuffer it post hshort pre [] hpre

/-- Witness for C9 (amended): a boolean + Uint16 response decodes from a
long-enough buffer and fails, naming key `v` at offset 1, from a buffer
whose numeric slice is one byte short. -/
theorem C9_decode_short_buffer_witness :
    (∃ record, ResponseDecoder.decode mixedProtocol [9] [1, 0, 3] =
      Except.ok record) ∧
    ResponseDecoder.decode mixedProtocol [9] [1, 2] =
      Except.error (DecodeError.itemError "v" 1) := by
  constructor
  · exact (C9_decode_short_buffer_behavior mixedProtocol [9] [1, 0, 3]
      mixedResponse rfl).1 (by decide)
  · exact (C9_decode_short_buffer_behavior mixedProtocol [9] [1, 2]
      mixedResponse rfl).2
      [⟨"a", 0, 1, ItemType.boolean⟩]
      ⟨"v", 1, 2, ItemType.numeric NumberType.uint16 none none none⟩ []
      rfl (by decide) (by decide)
